import Mathlib

/-!
Shallow embedding of the AIONEX front-end logic (static/script.js, version 9.0).

The embedded functions mirror, statement by statement, the JavaScript source:
`updateHistory`, `removeHistoryItem`, `saveArticle`, `removeArticle`,
`sortResults`, `getPmidFromUrl`, `translateTexts`, `fetchReputation`,
`renderSummaryView`, `fetchAnalysis`, and the `qa-form` submit handler.
Network effects are modelled by passing the outcome of each HTTP fetch as an
explicit argument (`FetchOutcome`), and the calls a code path issues are
collected in a trace (`List ApiCall`).  DOM rendering is modelled as a trace
of `RenderCall`s together with an explicit `Content` value for the
content-area element, which each `renderContent` call replaces wholesale
(result cards live only there, so a card lookup after a loader or error
render finds nothing).  JavaScript string truthiness is modelled by comparison
with the empty string, and `localStorage.setItem` failures by an `Except`
result (the JS code has no try/catch around those calls).
-/

namespace Aionex

/-- Outcome of one HTTP fetch as seen by the JS caller: a rejected promise
(network/transport error caught in a `catch` block), a non-2xx response
(`!response.ok`, with the message extracted from the body), or a parsed
success body. -/
inductive FetchOutcome (α : Type) where
  | transportError (msg : String)
  | httpError (msg : String)
  | ok (value : α)
deriving DecidableEq, Repr

/-- ArticleDetail as returned by POST /api/analyze (fields used by script.js). -/
structure Article where
  link : String
  title : String
  abstract : String
  summary : String
  sentiment : String
deriving DecidableEq, Repr

/-- Reduced projection stored in the saved-articles collection. -/
structure SavedArticle where
  link : String
  title : String
deriving DecidableEq, Repr

/-- One search result; `date` is the parsed timestamp of the article's date
string (the claims about sorting quantify only over parseable dates, so the
embedding carries the `new Date(...)` numeric value directly). -/
structure SearchResult where
  title : String
  link : String
  date : Int
deriving DecidableEq, Repr

/-- Body of a GET /api/reputation response: named 0–100 metric components. -/
structure Reputation where
  components : List (String × Nat)
deriving DecidableEq, Repr

/-- One backend HTTP call issued by the front end. -/
inductive ApiCall where
  | analyze (url : String)
  | reputation (pmid : String)
  | translate (texts : List String) (lang : String)
  | ask (question : String) (context : String)
deriving DecidableEq, Repr

/-- The article fields shown by `createSummaryHTML`, plus whether the metrics
(graphs) section is present (`reputationData ? createGraphsHTML(...) : ''`). -/
structure RenderedSummary where
  title : String
  summary : String
  abstract : String
  sentiment : String
  metricsShown : Bool
deriving DecidableEq, Repr

/-- One `renderContent(...)` call. -/
inductive RenderCall where
  | loader
  | error (msg : String)
  | results (articles : List SearchResult)
  | summary (view : RenderedSummary)
deriving DecidableEq, Repr

/-- The mutable module-level state used by the detail-view coordinator:
`currentArticleData` (the original, untranslated article) and the selected
language (`elements.languageSelector.value`). -/
structure AppState where
  currentArticleData : Option Article
  lang : String
deriving DecidableEq, Repr

/-- One result card in the content area: its `data-link` and whether it
carries the `is-empty` class. -/
structure ResultCard where
  link : String
  marked : Bool
deriving DecidableEq, Repr

/-- Contents of the `content-area` element.  `renderContent(html)` replaces
it wholesale (`contentArea.innerHTML = html`), so the area holds exactly one
of: the loader, an error banner, the result-card list, or a summary card. -/
inductive Content where
  | loader
  | error (msg : String)
  | results (cards : List ResultCard)
  | summary (view : RenderedSummary)
deriving DecidableEq, Repr

/-- Coordinator state plus the current contents of the content area (the
only place result cards ever live). -/
structure UIState where
  app : AppState
  content : Content
deriving DecidableEq, Repr

/-! ### 7. DASHBOARD & LOCAL STORAGE -/

/-- Embeds `updateHistory` (script.js lines 501–507), in-memory part:
`if (!searchHistory.includes(query)) { searchHistory.unshift(query);
searchHistory = searchHistory.slice(0, 20); ... }`. -/
def updateHistory (searchHistory : List String) (query : String) : List String :=
  if searchHistory.contains query then searchHistory
  else (query :: searchHistory).take 20

/-- Embeds `removeHistoryItem` (lines 509–513), in-memory part:
`searchHistory = searchHistory.filter(item => item !== query)`. -/
def removeHistoryItem (searchHistory : List String) (query : String) : List String :=
  searchHistory.filter (fun item => item ≠ query)

/-- Embeds `saveArticle` (lines 523–528), in-memory part:
`if (!savedArticles.some(a => a.link === article.link))
savedArticles.unshift(article)`. -/
def saveArticle (savedArticles : List SavedArticle) (article : SavedArticle) :
    List SavedArticle :=
  if savedArticles.any (fun a => a.link = article.link) then savedArticles
  else article :: savedArticles

/-- Embeds `removeArticle` (lines 530–534), in-memory part:
`savedArticles = savedArticles.filter(a => a.link !== link)`. -/
def removeArticle (savedArticles : List SavedArticle) (link : String) :
    List SavedArticle :=
  savedArticles.filter (fun a => a.link ≠ link)

/-- Models `localStorage.setItem`: when the browser store is unavailable or
over quota the call throws; script.js wraps it in no try/catch, so the
error escapes to the caller.  `ok` says whether the write succeeds, `disk`
is the currently persisted value. -/
def setItem {α : Type} (_disk : Option α) (ok : Bool) (v : α) :
    Except String (Option α) :=
  if ok then .ok (some v) else .error "QuotaExceededError"

/-- Runs `updateHistory` including its `localStorage.setItem` call: returns
the in-memory collection after the call (mutated before the write is
attempted) and the outcome of the write (`Except.error` = an exception
propagated to the caller).  Note the write only happens on the insert
branch. -/
def updateHistoryRun (mem : List String) (disk : Option (List String))
    (query : String) (ok : Bool) :
    List String × Except String (Option (List String)) :=
  if mem.contains query then (mem, .ok disk)
  else
    let m := (query :: mem).take 20
    (m, setItem disk ok m)

/-- Runs `saveArticle` including its `localStorage.setItem` call, analogous
to `updateHistoryRun`. -/
def saveArticleRun (mem : List SavedArticle) (disk : Option (List SavedArticle))
    (article : SavedArticle) (ok : Bool) :
    List SavedArticle × Except String (Option (List SavedArticle)) :=
  if mem.any (fun a => a.link = article.link) then (mem, .ok disk)
  else
    let m := article :: mem
    (m, setItem disk ok m)

/-- One dashboard operation on the history collection. -/
inductive HistOp where
  | add (query : String)
  | remove (query : String)
deriving DecidableEq, Repr

/-- Applies one dashboard operation to the history collection. -/
def histStep (h : List String) (op : HistOp) : List String :=
  match op with
  | .add q => updateHistory h q
  | .remove q => removeHistoryItem h q

/-- Applies a sequence of history operations starting from the empty
collection (oldest operation first). -/
def runHistOps (ops : List HistOp) : List String :=
  ops.foldl histStep []

/-! ### 7b. Sorting -/

/-- Sort mode from the `sort-select` control. -/
inductive SortMode where
  | bestMatch
  | newest
  | oldest
  | titleAZ
deriving DecidableEq, Repr

/-- Comparator for 'newest': `(a, b) => new Date(b.date) - new Date(a.date)`
keeps `a` before `b` when `b`'s date is at most `a`'s. -/
def newestComp (a b : SearchResult) : Bool := decide (b.date ≤ a.date)

/-- Comparator for 'oldest': `(a, b) => new Date(a.date) - new Date(b.date)`. -/
def oldestComp (a b : SearchResult) : Bool := decide (a.date ≤ b.date)

/-- Comparator for 'title-az' (`localeCompare`, abstracted to lexicographic
order on the title). -/
def titleComp (a b : SearchResult) : Bool := decide (a.title ≤ b.title)

/-- Strict descending-by-date order used to characterize sorted outputs. -/
def dateGT (a b : SearchResult) : Prop := b.date < a.date

instance : DecidableRel dateGT :=
  fun a b => inferInstanceAs (Decidable (b.date < a.date))

instance : IsAntisymm SearchResult dateGT :=
  ⟨fun _ _ h1 h2 => absurd (lt_trans h1 h2) (lt_irrefl _)⟩

/-- Embeds `sortResults` (lines 551–566).  It copies `lastResults`
(`[...lastResults]`), sorts the copy with the mode's comparator, and renders;
it issues no fetch, so its API-call trace is `[]`.  The `newest` comparator
`(a, b) => new Date(b.date) - new Date(a.date)` orders descending by date,
`oldest` ascending; `title-az` uses `localeCompare`, abstracted here to
lexicographic order on the title.  The second component is the list of
backend calls issued (none). -/
def sortResults (mode : SortMode) (lastResults : List SearchResult) :
    List SearchResult × List ApiCall :=
  (match mode with
    | .bestMatch => lastResults
    | .newest => lastResults.mergeSort newestComp
    | .oldest => lastResults.mergeSort oldestComp
    | .titleAZ => lastResults.mergeSort titleComp,
   [])

/-! ### 8. API CALLS & DATA FETCHING -/

/-- Character list of the literal part of the regex in `getPmidFromUrl`:
`/pubmed\.ncbi\.nlm\.nih\.gov\/(\d+)/`. -/
def pmidHost : List Char := "pubmed.ncbi.nlm.nih.gov/".toList

/-- Maximal leading run of ASCII digits (the `\d+` capture group). -/
def leadingDigits : List Char → List Char
  | [] => []
  | c :: rest => if c.isDigit then c :: leadingDigits rest else []

/-- Regex search for `getPmidFromUrl`: tries each start position in turn; a
position matches when the literal host text is followed by at least one
digit, and the capture is the maximal digit run. -/
def findPmid : List Char → Option (List Char)
  | [] => none
  | l@(_ :: rest) =>
    if pmidHost.isPrefixOf l then
      let ds := leadingDigits (l.drop pmidHost.length)
      if ds.isEmpty then findPmid rest else some ds
    else findPmid rest

/-- Embeds `getPmidFromUrl` (lines 570–573):
`url.match(/pubmed\.ncbi\.nlm\.nih\.gov\/(\d+)/)` returning the captured
digits, or `null` (here `none`) when there is no match. -/
def getPmidFromUrl (url : String) : Option String :=
  (findPmid url.toList).map (fun ds => String.mk ds)

/-- Embeds `translateTexts` (lines 575–590).  `out` is the outcome of the
POST /api/translate fetch; the `.ok` payload is the `translations` field of
the response body (`none` when the field is missing or null — then
`data.translations || texts` yields `texts`).  The guard
`if (!texts || texts.length === 0 || lang === 'en') return texts` skips the
fetch entirely; `!response.ok` and the catch branch both return `texts`. -/
def translateTexts (texts : List String) (lang : String)
    (out : FetchOutcome (Option (List String))) : List String :=
  if texts.isEmpty ∨ lang = "en" then texts
  else
    match out with
    | .transportError _ => texts
    | .httpError _ => texts
    | .ok none => texts
    | .ok (some ts) => ts

/-- API calls issued by `translateTexts`: none when the guard short-circuits,
otherwise one POST /api/translate with the batched texts. -/
def translateTextsCalls (texts : List String) (lang : String) : List ApiCall :=
  if texts.isEmpty ∨ lang = "en" then [] else [.translate texts lang]

/-- Embeds `fetchReputation` (lines 643–652): `if (!pmid) return null` (no
fetch at all), otherwise GET /api/reputation/{pmid}; a non-ok response or a
caught error yields `null`.  Returns the calls issued and the result. -/
def fetchReputation (pmid : Option String) (out : FetchOutcome Reputation) :
    List ApiCall × Option Reputation :=
  match pmid with
  | none => ([], none)
  | some p =>
    ([.reputation p],
     match out with
     | .ok r => some r
     | .transportError _ => none
     | .httpError _ => none)

/-! ### 5. TEMPLATE & RENDER FUNCTIONS (summary view) -/

/-- The batched list sent for translation in `renderSummaryView`:
`[displayData.title, displayData.summary, displayData.abstract]
.filter(Boolean)` — JS string truthiness drops exactly the empty fields. -/
def textsToTranslate (a : Article) : List String :=
  [a.title, a.summary, a.abstract].filter (fun s => s ≠ "")

/-- Models `translatedContent[i] || fallback`: an out-of-range index gives
`undefined` and an empty string is falsy; both fall back. -/
def jsIndexOr (l : List String) (i : Nat) (fallback : String) : String :=
  match l.get? i with
  | some s => if s = "" then fallback else s
  | none => fallback

/-- The overlay block of `renderSummaryView` (lines 374–378): when a
translation result is present, `displayData.title/summary/abstract` are
overwritten positionally from indices 0/1/2 with `||` fallback to the
original field. -/
def mergeTranslation (a : Article) (t : Option (List String)) : Article :=
  match t with
  | none => a
  | some ts =>
    { a with
      title := jsIndexOr ts 0 a.title
      summary := jsIndexOr ts 1 a.summary
      abstract := jsIndexOr ts 2 a.abstract }

/-- Projection of `createSummaryHTML` (lines 316–348): the displayed fields
and whether the metrics section is rendered
(`reputationData ? createGraphsHTML(...) : ''`). -/
def createSummaryHTML (displayData : Article) (reputationData : Option Reputation) :
    RenderedSummary :=
  { title := displayData.title
    summary := displayData.summary
    abstract := displayData.abstract
    sentiment := displayData.sentiment
    metricsShown := reputationData.isSome }

/-- Environment for the two parallel fetches of one detail-view render. -/
structure FetchEnv where
  reputationOutcome : FetchOutcome Reputation
  translateOutcome : FetchOutcome (Option (List String))
deriving DecidableEq, Repr

/-- The article as displayed after one `renderSummaryView` pass: the
translation overlay is applied only when the language is not 'en'
(`lang !== 'en' && translatedContent`; the translation result is always an
array, hence truthy, when the translation branch ran). -/
def displayedArticle (art : Article) (lang : String) (env : FetchEnv) : Article :=
  mergeTranslation art
    (if lang = "en" then none
     else some (translateTexts (textsToTranslate art) lang env.translateOutcome))

/-- Embeds `renderSummaryView` (lines 353–385).  If no article is current it
returns immediately.  Otherwise it deep-copies the article (the embedding
never mutates `currentArticleData`, matching
`JSON.parse(JSON.stringify(...))`), renders a loader, starts the reputation
fetch and — only when the language is not 'en' — the batched translation
fetch, awaits both (`Promise.all`), overlays the translation, and issues a
single final `renderContent(createSummaryHTML(displayData, reputationData))`.
Neither `fetchReputation` nor `translateTexts` can reject, so the catch
branch is dead code.  Returns (state, API calls, render calls). -/
def renderSummaryView (s : AppState) (env : FetchEnv) :
    AppState × List ApiCall × List RenderCall :=
  match s.currentArticleData with
  | none => (s, [], [])
  | some art =>
    let pmid := getPmidFromUrl art.link
    let rep := fetchReputation pmid env.reputationOutcome
    let transCalls : List ApiCall :=
      if s.lang = "en" then []
      else translateTextsCalls (textsToTranslate art) s.lang
    let displayData := displayedArticle art s.lang env
    (s, rep.1 ++ transCalls,
     [.loader, .summary (createSummaryHTML displayData rep.2)])

/-- The sentinel abstract value special-cased by `fetchAnalysis`. -/
def abstractSentinel : String := "Abstract not available."

/-- Error message rendered for the sentinel abstract. -/
def cannotAnalyzeMsg : String :=
  "This article does not have an abstract and cannot be analyzed."

/-- Applies one `renderContent` call to the content area (the previous
content is discarded: `contentArea.innerHTML = html`).  `createResultsHTML`
builds fresh cards without the `is-empty` class. -/
def applyRender (_c : Content) : RenderCall → Content
  | .loader => .loader
  | .error m => .error m
  | .results rs => .results (rs.map (fun r => ⟨r.link, false⟩))
  | .summary v => .summary v

/-- Adds the `is-empty` class to the first card whose link matches. -/
def markFirstCard : List ResultCard → String → List ResultCard
  | [], _ => []
  | k :: rest, url =>
    if k.link = url then { k with marked := true } :: rest
    else k :: markFirstCard rest url

/-- Models lines 627–631:
`document.querySelector('.result-card[data-link=url]')` followed by
`classList.add('is-empty')` when a card is found.  Result cards only ever
live in the content area, so the lookup succeeds only when the area
currently shows the result list; on any other content the querySelector
returns null and the `if (resultCard)` guard makes it a no-op. -/
def markCardEmpty (c : Content) (url : String) : Content :=
  match c with
  | .results cards => .results (markFirstCard cards url)
  | other => other

/-- True when the content area shows a result card for `link` carrying the
`is-empty` class. -/
def cardMarkedInContent (c : Content) (link : String) : Bool :=
  match c with
  | .results cards => cards.any (fun k => k.link = link && k.marked)
  | _ => false

/-- Embeds the result-card click handler (lines 752–756) against the current
content area: a click on the card for `link` triggers an analyze call only
when such a card is displayed and does not carry the `is-empty` class. -/
def cardClick (c : Content) (link : String) : List ApiCall :=
  match c with
  | .results cards =>
    if cards.any (fun k => k.link = link && !k.marked) then [.analyze link]
    else []
  | _ => []

/-- Embeds `fetchAnalysis` (lines 617–641).  `analyzeOut` is the outcome of
POST /api/analyze.  The function first renders the loader — replacing the
result cards in the content area.  On a transport/HTTP error the catch
branch clears `currentArticleData` and renders the message.  On success with
the sentinel abstract it renders `cannotAnalyzeMsg` and only then runs the
card querySelector: at that point the content area holds the error banner,
so no card is found and `markCardEmpty` is a no-op; then it returns before
any further fetch.  Otherwise it stores the article as current, runs
`renderSummaryView`, and the content area ends at the fold of the render
trace over the loader. -/
def fetchAnalysis (s : UIState) (url : String) (analyzeOut : FetchOutcome Article)
    (env : FetchEnv) : UIState × List ApiCall × List RenderCall :=
  match analyzeOut with
  | .transportError msg =>
    ({ app := { s.app with currentArticleData := none }, content := .error msg },
     [.analyze url], [.loader, .error msg])
  | .httpError msg =>
    ({ app := { s.app with currentArticleData := none }, content := .error msg },
     [.analyze url], [.loader, .error msg])
  | .ok data =>
    if data.abstract = abstractSentinel then
      ({ app := s.app,
         content := markCardEmpty (Content.error cannotAnalyzeMsg) url },
       [.analyze url], [.loader, .error cannotAnalyzeMsg])
    else
      let app1 := { s.app with currentArticleData := some data }
      let r := renderSummaryView app1 env
      ({ app := r.1, content := r.2.2.foldl applyRender Content.loader },
       .analyze url :: r.2.1, .loader :: r.2.2)

/-- Embeds the back-to-results handler (lines 788–792):
`renderContent(createResultsHTML(lastResults))` recreates the result cards
from the cached results, none carrying the `is-empty` class. -/
def backToResults (s : UIState) (lastResults : List SearchResult) : UIState :=
  { app := { s.app with currentArticleData := none },
    content := .results (lastResults.map (fun r => ⟨r.link, false⟩)) }

/-- Leading-whitespace stripper used to model JavaScript `String.trim()`. -/
def dropLeadingWS : List Char → List Char
  | [] => []
  | c :: rest => if c.isWhitespace then dropLeadingWS rest else c :: rest

/-- Executable model of JavaScript `value.trim()`: removes leading and
trailing whitespace. -/
def jsTrim (s : String) : String :=
  String.mk ((dropLeadingWS (dropLeadingWS s.toList).reverse).reverse)

/-- Embeds the `qa-form` submit handler (lines 795–802): the question is
trimmed, the context is `currentArticleData ? currentArticleData.abstract :
''`, and `fetchAnswer` is invoked only when both are non-empty.  Returns the
POST /api/ask request issued, if any. -/
def qaSubmit (s : AppState) (rawQuestion : String) : Option ApiCall :=
  let question := jsTrim rawQuestion
  let context := match s.currentArticleData with
    | some a => a.abstract
    | none => ""
  if question ≠ "" ∧ context ≠ "" then some (.ask question context) else none

/-! ### Concrete fixtures used by witness theorems -/

/-- Twenty distinct search submissions, enough to fill the history cap. -/
def ops20 : List HistOp :=
  [.add "a", .add "b", .add "c", .add "d", .add "e", .add "f", .add "g",
   .add "h", .add "i", .add "j", .add "k", .add "l", .add "m", .add "n",
   .add "o", .add "p", .add "q", .add "r", .add "s", .add "t"]

/-- Three results with pairwise distinct dates. -/
def demoResults : List SearchResult :=
  [⟨"alpha", "u1", 5⟩, ⟨"beta", "u2", 9⟩, ⟨"gamma", "u3", 1⟩]

/-- A sample article whose PubMed link yields a pmid. -/
def demoArticle : Article :=
  { link := "https://pubmed.ncbi.nlm.nih.gov/12345/"
    title := "Microgravity and bone loss"
    abstract := "Original abstract text."
    summary := "Short AI summary."
    sentiment := "POSITIVE" }

/-! ### Claim C3: translation pass-through -/

/-- C3: `translateTexts` returns the input sequence unchanged when the
language is the default ('en') or the input is empty, and also returns the
input unchanged (without throwing: the embedding is a total function,
mirroring the `catch` that swallows transport errors) on transport failure
or a non-success HTTP response. -/
theorem translateTexts_passthrough (texts : List String) (lang : String)
    (out : FetchOutcome (Option (List String))) (m : String) :
    ((lang = "en" ∨ texts = []) → translateTexts texts lang out = texts) ∧
    translateTexts texts lang (.transportError m) = texts ∧
    translateTexts texts lang (.httpError m) = texts := by
  refine ⟨?_, ?_, ?_⟩
  · rintro (h | h) <;> simp [translateTexts, h]
  · unfold translateTexts; split <;> rfl
  · unfold translateTexts; split <;> rfl

/-- Witness for C3 at concrete inputs. -/
theorem translateTexts_passthrough_witness :
    translateTexts ["hello"] "en" (.ok (some ["hola"])) = ["hello"] :=
  (translateTexts_passthrough ["hello"] "en" (.ok (some ["hola"])) "x").1
    (Or.inl rfl)

/-! ### Claim C4: addHistory idempotence -/

/-- Helper: inserting a fresh query prepends it and keeps the first 19 old
entries (`(q :: h).take 20 = q :: h.take 19`). -/
theorem updateHistory_not_mem_eq (h : List String) (q : String) (hq : q ∉ h) :
    updateHistory h q = q :: h.take 19 := by
  have hc : h.contains q = false := by simpa using hq
  rw [updateHistory]
  simp only [hc, Bool.false_eq_true, if_false]
  rw [show (20 : Nat) = 19 + 1 from rfl, List.take_succ_cons]

/-- C4 counterexample: with history `["a", "b"]`, adding the already-present
query `"b"` is a no-op, so the result does NOT have `"b"` at the front —
refuting the claim that re-adding an existing entry moves it to the front. -/
theorem updateHistory_not_moved_to_front :
    updateHistory ["a", "b"] "b" = ["a", "b"] ∧
    (updateHistory ["a", "b"] "b").head? ≠ some "b" := by
  decide

/-- C4 amended: adding a query already present is a no-op (the entry keeps
its position); consequently adding the same query twice in a row yields a
single entry positioned at the front: the first add prepends it, the second
leaves the history unchanged. -/
theorem updateHistory_idempotent (h : List String) (q : String) :
    (q ∈ h → updateHistory h q = h) ∧
    (q ∉ h →
      (updateHistory h q).head? = some q ∧
      (updateHistory h q).count q = 1 ∧
      updateHistory (updateHistory h q) q = updateHistory h q) := by
  constructor
  · intro hq
    simp [updateHistory, hq]
  · intro hq
    have hu : updateHistory h q = q :: h.take 19 :=
      updateHistory_not_mem_eq h q hq
    have hnotin : q ∉ h.take 19 := fun hmem => hq ((List.take_subset 19 h) hmem)
    refine ⟨by simp [hu], ?_, ?_⟩
    · rw [hu, List.count_cons_self, List.count_eq_zero.mpr hnotin]
    · rw [hu, updateHistory, if_pos]
      simp

/-- Witness for C4's amended statement at concrete inputs. -/
theorem updateHistory_idempotent_witness :
    updateHistory ["a", "b"] "b" = ["a", "b"] ∧
    (updateHistory ["a", "b"] "c").head? = some "c" ∧
    updateHistory (updateHistory ["a", "b"] "c") "c" =
      updateHistory ["a", "b"] "c" :=
  ⟨(updateHistory_idempotent ["a", "b"] "b").1 (by decide),
   ((updateHistory_idempotent ["a", "b"] "c").2 (by decide)).1,
   ((updateHistory_idempotent ["a", "b"] "c").2 (by decide)).2.2⟩

/-! ### Claim C5: history collection invariants -/

/-- Helper: one `updateHistory` step preserves distinctness and the cap. -/
theorem updateHistory_preserves (h : List String) (q : String)
    (hnd : h.Nodup) (hlen : h.length ≤ 20) :
    (updateHistory h q).Nodup ∧ (updateHistory h q).length ≤ 20 := by
  unfold updateHistory
  split
  · exact ⟨hnd, hlen⟩
  · rename_i hc
    rw [Bool.not_eq_true] at hc
    have hq : q ∉ h := by simpa using hc
    exact ⟨(List.nodup_cons.mpr ⟨hq, hnd⟩).sublist (List.take_sublist _ _),
      by simp [List.length_take_le 20 (q :: h)]⟩

/-- Helper: one `removeHistoryItem` step preserves distinctness and the cap. -/
theorem removeHistoryItem_preserves (h : List String) (q : String)
    (hnd : h.Nodup) (hlen : h.length ≤ 20) :
    (removeHistoryItem h q).Nodup ∧ (removeHistoryItem h q).length ≤ 20 :=
  ⟨hnd.filter _, le_trans (List.length_filter_le _ _) hlen⟩

/-- Helper: distinctness and the 20-entry cap hold for every state reachable
from the empty history. -/
theorem runHistOps_inv (ops : List HistOp) :
    (runHistOps ops).Nodup ∧ (runHistOps ops).length ≤ 20 := by
  suffices H : ∀ (l : List HistOp) (h : List String), h.Nodup → h.length ≤ 20 →
      (l.foldl histStep h).Nodup ∧ (l.foldl histStep h).length ≤ 20 from
    H ops [] (by simp) (by simp)
  intro l
  induction l with
  | nil => intro h hnd hlen; exact ⟨hnd, hlen⟩
  | cons op rest ih =>
    intro h hnd hlen
    rw [List.foldl_cons]
    cases op with
    | add q =>
      exact ih _ (updateHistory_preserves h q hnd hlen).1
        (updateHistory_preserves h q hnd hlen).2
    | remove q =>
      exact ih _ (removeHistoryItem_preserves h q hnd hlen).1
        (removeHistoryItem_preserves h q hnd hlen).2

/-- C5: after every sequence of add/remove operations from the empty
history, entries are pairwise distinct and number at most 20; a fresh query
is placed at the front; and adding a 21st distinct query to a full history
keeps only the first 19 old entries (the oldest, last entry is evicted) and
leaves the length at 20. -/
theorem history_collection_invariants (ops : List HistOp) (q : String) :
    (runHistOps ops).Nodup ∧
    (runHistOps ops).length ≤ 20 ∧
    (q ∉ runHistOps ops → (updateHistory (runHistOps ops) q).head? = some q) ∧
    (q ∉ runHistOps ops → (runHistOps ops).length = 20 →
      updateHistory (runHistOps ops) q = q :: (runHistOps ops).take 19 ∧
      (updateHistory (runHistOps ops) q).length = 20) := by
  obtain ⟨hnd, hlen⟩ := runHistOps_inv ops
  refine ⟨hnd, hlen, ?_, ?_⟩
  · intro hq
    rw [updateHistory_not_mem_eq _ _ hq]
    rfl
  · intro hq hfull
    refine ⟨updateHistory_not_mem_eq _ _ hq, ?_⟩
    rw [updateHistory_not_mem_eq _ _ hq]
    simp [List.length_take, hfull]

/-- Witness for C5 at a concrete full history. -/
theorem history_collection_invariants_witness :
    (runHistOps ops20).length = 20 ∧
    (updateHistory (runHistOps ops20) "z").head? = some "z" ∧
    updateHistory (runHistOps ops20) "z" = "z" :: (runHistOps ops20).take 19 ∧
    (updateHistory (runHistOps ops20) "z").length = 20 :=
  ⟨by decide,
   (history_collection_invariants ops20 "z").2.2.1 (by decide),
   ((history_collection_invariants ops20 "z").2.2.2 (by decide) (by decide)).1,
   ((history_collection_invariants ops20 "z").2.2.2 (by decide) (by decide)).2⟩

/-! ### Claim C6: saved-articles round trip -/

/-- C6 counterexample: if an article with the same link is already saved,
`saveArticle` is a no-op but `removeArticle` removes the pre-existing entry,
so the round trip does not restore the original collection. -/
theorem saved_roundtrip_counterexample :
    removeArticle (saveArticle [⟨"L", "T"⟩] ⟨"L", "T"⟩) "L" ≠
      [(⟨"L", "T"⟩ : SavedArticle)] := by
  decide

/-- C6 amended: provided no entry with the article's link is already saved,
saving then removing that link restores the collection exactly. -/
theorem saveArticle_removeArticle_roundtrip (saved : List SavedArticle)
    (article : SavedArticle) (h : ∀ a ∈ saved, a.link ≠ article.link) :
    removeArticle (saveArticle saved article) article.link = saved := by
  have hany : (saved.any fun a => a.link = article.link) = false := by
    simpa using h
  rw [saveArticle, if_neg (by simp [hany])]
  show removeArticle (article :: saved) article.link = saved
  rw [removeArticle, List.filter_cons_of_neg (by simp)]
  exact List.filter_eq_self.mpr (fun a ha => by simpa using h a ha)

/-- Witness for C6's amended statement at concrete inputs. -/
theorem saveArticle_removeArticle_roundtrip_witness :
    removeArticle (saveArticle [⟨"A", "T1"⟩] ⟨"B", "T2"⟩) "B" =
      [(⟨"A", "T1"⟩ : SavedArticle)] :=
  saveArticle_removeArticle_roundtrip [⟨"A", "T1"⟩] ⟨"B", "T2"⟩ (by decide)

/-! ### Claim C8: sorting -/

/-- Helper: the 'newest' output is pairwise descending by date. -/
theorem mergeSort_newest_pairwise (l : List SearchResult) :
    (l.mergeSort newestComp).Pairwise (fun a b => b.date ≤ a.date) := by
  have hs := @List.sorted_mergeSort SearchResult newestComp
    (fun a b c hab hbc => by
      simp only [newestComp, decide_eq_true_eq] at hab hbc ⊢
      omega)
    (fun a b => by simp only [newestComp, Bool.or_eq_true, decide_eq_true_eq]; omega) l
  exact hs.imp (fun hab => by simpa [newestComp] using hab)

/-- Helper: the 'oldest' output is pairwise ascending by date. -/
theorem mergeSort_oldest_pairwise (l : List SearchResult) :
    (l.mergeSort oldestComp).Pairwise (fun a b => a.date ≤ b.date) := by
  have hs := @List.sorted_mergeSort SearchResult oldestComp
    (fun a b c hab hbc => by
      simp only [oldestComp, decide_eq_true_eq] at hab hbc ⊢
      omega)
    (fun a b => by simp only [oldestComp, Bool.or_eq_true, decide_eq_true_eq]; omega) l
  exact hs.imp (fun hab => by simpa [oldestComp] using hab)

/-- Helper: pairwise-distinct dates, stated on the elements. -/
theorem pairwise_ne_dates {l : List SearchResult}
    (hnd : (l.map (fun r => r.date)).Nodup) :
    l.Pairwise (fun a b => a.date ≠ b.date) :=
  List.pairwise_map.mp hnd

/-- C8: sorting is a pure re-derivation from the cached result set that
issues no backend call (its API-call trace is empty for every mode); when
the cached results have pairwise distinct dates, the 'newest' order is
exactly the reverse of the 'oldest' order, and both are permutations of the
cached set (no element is added, dropped, or modified). -/
theorem sortResults_pure_and_reversal (l : List SearchResult)
    (hnd : (l.map (fun r => r.date)).Nodup) :
    (sortResults .newest l).1 = ((sortResults .oldest l).1).reverse ∧
    (sortResults .newest l).1.Perm l ∧
    (sortResults .oldest l).1.Perm l ∧
    (∀ m : SortMode, (sortResults m l).2 = []) := by
  have permN : (l.mergeSort newestComp).Perm l := List.mergeSort_perm l newestComp
  have permO : (l.mergeSort oldestComp).Perm l := List.mergeSort_perm l oldestComp
  have hndN : ((l.mergeSort newestComp).map (fun r => r.date)).Nodup :=
    ((permN.map (fun r => r.date)).nodup_iff).mpr hnd
  have hndO : ((l.mergeSort oldestComp).map (fun r => r.date)).Nodup :=
    ((permO.map (fun r => r.date)).nodup_iff).mpr hnd
  have strictN : List.Sorted dateGT (l.mergeSort newestComp) :=
    ((mergeSort_newest_pairwise l).and (pairwise_ne_dates hndN)).imp
      (fun h => lt_of_le_of_ne h.1 (Ne.symm h.2))
  have strictO : (l.mergeSort oldestComp).Pairwise (fun a b => a.date < b.date) :=
    ((mergeSort_oldest_pairwise l).and (pairwise_ne_dates hndO)).imp
      (fun h => lt_of_le_of_ne h.1 h.2)
  have strictOrev : List.Sorted dateGT ((l.mergeSort oldestComp).reverse) :=
    List.pairwise_reverse.mpr (strictO.imp (fun h => h))
  have permRev : (l.mergeSort newestComp).Perm ((l.mergeSort oldestComp).reverse) :=
    permN.trans (permO.symm.trans ((l.mergeSort oldestComp).reverse_perm).symm)
  exact ⟨List.eq_of_perm_of_sorted permRev strictN strictOrev, permN, permO,
    fun m => by cases m <;> rfl⟩

/-- Witness for C8 at a concrete result set with distinct dates. -/
theorem sortResults_pure_and_reversal_witness :
    (sortResults .newest demoResults).1 =
      ((sortResults .oldest demoResults).1).reverse :=
  (sortResults_pure_and_reversal demoResults (by decide)).1

/-! ### Claim C9: storage failures -/

/-- C9 counterexample: with an empty collection and a failing storage write,
both `updateHistory` and `saveArticle` let the `setItem` exception escape to
the caller (the source wraps neither call in try/catch). -/
theorem storage_exception_counterexample :
    (updateHistoryRun [] none "q" false).2 =
      Except.error "QuotaExceededError" ∧
    (saveArticleRun [] none ⟨"L", "T"⟩ false).2 =
      Except.error "QuotaExceededError" :=
  ⟨rfl, rfl⟩

/-- C9 amended: the in-memory collection is always updated (it matches the
pure operation, since the mutation happens before the persist attempt), but
the storage exception propagates to the caller exactly when a new entry is
inserted and the write fails — there is no internal catch. -/
theorem storage_failure_memory_authoritative (mem : List String)
    (disk : Option (List String)) (q : String) (saves : List SavedArticle)
    (sdisk : Option (List SavedArticle)) (article : SavedArticle) (ok : Bool) :
    (updateHistoryRun mem disk q ok).1 = updateHistory mem q ∧
    (saveArticleRun saves sdisk article ok).1 = saveArticle saves article ∧
    (updateHistoryRun mem disk q ok).2.isOk = (mem.contains q || ok) ∧
    (saveArticleRun saves sdisk article ok).2.isOk =
      ((saves.any fun a => a.link = article.link) || ok) := by
  refine ⟨?_, ?_, ?_, ?_⟩
  · unfold updateHistoryRun updateHistory
    split <;> simp
  · unfold saveArticleRun saveArticle
    split <;> simp
  · unfold updateHistoryRun setItem
    split
    · rename_i hc
      simp only [hc, Bool.true_or]
      rfl
    · rename_i hc
      rw [Bool.not_eq_true] at hc
      simp only [hc, Bool.false_or]
      cases ok <;> rfl
  · unfold saveArticleRun setItem
    split
    · rename_i hc
      simp only [hc, Bool.true_or]
      rfl
    · rename_i hc
      rw [Bool.not_eq_true] at hc
      simp only [hc, Bool.false_or]
      cases ok <;> rfl

/-! ### Claim C1: Q&A context invariant -/

/-- C1: for every viewed article and selected language, submitting a Q&A
question after the detail render sends the original (untranslated) abstract
as the `ask` context, and the issued request is identical to the one issued
after an untranslated ('en') render of the same article — translated text
never reaches the Q&A call. -/
theorem qaSubmit_context_untranslated (art : Article) (lang : String)
    (env envEn : FetchEnv) (question : String)
    (hq : jsTrim question ≠ "") (ha : art.abstract ≠ "") :
    qaSubmit (renderSummaryView ⟨some art, lang⟩ env).1 question =
      some (.ask (jsTrim question) art.abstract) ∧
    qaSubmit (renderSummaryView ⟨some art, lang⟩ env).1 question =
      qaSubmit (renderSummaryView ⟨some art, "en"⟩ envEn).1 question := by
  have hstate : ∀ (lg : String) (e : FetchEnv),
      (renderSummaryView ⟨some art, lg⟩ e).1 = ⟨some art, lg⟩ := fun _ _ => rfl
  rw [hstate, hstate]
  exact ⟨by simp [qaSubmit, hq, ha], by simp [qaSubmit]⟩

/-- Witness for C1: a translated Chinese render still asks about the
original English abstract. -/
theorem qaSubmit_context_untranslated_witness :
    qaSubmit (renderSummaryView ⟨some demoArticle, "zh"⟩
        ⟨.ok ⟨[("Citations", 80)]⟩, .ok (some ["标题", "摘要", "概括"])⟩).1
      " What is this about? " =
      some (.ask "What is this about?" "Original abstract text.") :=
  (qaSubmit_context_untranslated demoArticle "zh"
    ⟨.ok ⟨[("Citations", 80)]⟩, .ok (some ["标题", "摘要", "概括"])⟩
    ⟨.ok ⟨[("Citations", 80)]⟩, .ok none⟩
    " What is this about? " (by decide) (by decide)).1

/-! ### Claim C2: sentinel abstract -/

/-- C2 counterexample: navigating from a results view that shows the card
for "u" into a sentinel analyze response leaves no marked card — the loader
and error renders have already replaced the result list when the card lookup
runs — and returning to the results recreates the card unmarked, so clicking
it issues a fresh analyze call, refuting the claimed permanent
non-interactivity. -/
theorem fetchAnalysis_sentinel_no_mark :
    cardMarkedInContent
      (fetchAnalysis ⟨⟨none, "en"⟩, .results [⟨"u", false⟩]⟩ "u"
        (.ok ⟨"u", "T", "Abstract not available.", "S", "POSITIVE"⟩)
        ⟨.ok ⟨[]⟩, .ok none⟩).1.content "u" = false ∧
    cardClick (backToResults
      (fetchAnalysis ⟨⟨none, "en"⟩, .results [⟨"u", false⟩]⟩ "u"
        (.ok ⟨"u", "T", "Abstract not available.", "S", "POSITIVE"⟩)
        ⟨.ok ⟨[]⟩, .ok none⟩).1 [⟨"t", "u", 0⟩]).content "u" = [.analyze "u"] := by
  decide

/-- C2 amended: an analyze response whose abstract is the literal sentinel
makes the coordinator render the cannot-be-analyzed message and issue no
reputation and no translation call — the whole API trace of the navigation
is the single analyze request; however, the originating result card is NOT
marked non-interactive: the querySelector runs after the loader and error
renders replaced the result cards, so the `is-empty` mark is never applied
(the final content carries no marked card), and a later results re-render
recreates every card unmarked. -/
theorem fetchAnalysis_sentinel (s : UIState) (url : String) (data : Article)
    (env : FetchEnv) (h : data.abstract = abstractSentinel) :
    fetchAnalysis s url (.ok data) env =
      ({ app := s.app, content := .error cannotAnalyzeMsg },
       [.analyze url], [.loader, .error cannotAnalyzeMsg]) ∧
    (∀ link, cardMarkedInContent
      (fetchAnalysis s url (.ok data) env).1.content link = false) ∧
    (∀ p, ApiCall.reputation p ∉ (fetchAnalysis s url (.ok data) env).2.1) ∧
    (∀ ts lg, ApiCall.translate ts lg ∉ (fetchAnalysis s url (.ok data) env).2.1) ∧
    (∀ lastResults link, cardMarkedInContent
      (backToResults (fetchAnalysis s url (.ok data) env).1 lastResults).content
        link = false) := by
  have heq : fetchAnalysis s url (.ok data) env =
      ({ app := s.app, content := .error cannotAnalyzeMsg },
       [.analyze url], [.loader, .error cannotAnalyzeMsg]) := by
    simp [fetchAnalysis, h, markCardEmpty]
  refine ⟨heq, ?_, ?_, ?_, ?_⟩
  · intro link
    rw [heq]
    rfl
  · intro p
    rw [heq]
    simp
  · intro ts lg
    rw [heq]
    simp
  · intro lastResults link
    rw [heq]
    simp [backToResults, cardMarkedInContent]

/-- Witness for C2's amended statement at a concrete sentinel response. -/
theorem fetchAnalysis_sentinel_witness :
    fetchAnalysis ⟨⟨none, "zh"⟩, .results [⟨"v", false⟩]⟩ "v"
        (.ok ⟨"v", "T2", "Abstract not available.", "S2", "NEGATIVE"⟩)
        ⟨.ok ⟨[]⟩, .ok none⟩ =
      ({ app := ⟨none, "zh"⟩, content := .error cannotAnalyzeMsg },
       [.analyze "v"], [.loader, .error cannotAnalyzeMsg]) :=
  (fetchAnalysis_sentinel ⟨⟨none, "zh"⟩, .results [⟨"v", false⟩]⟩ "v"
    ⟨"v", "T2", "Abstract not available.", "S2", "NEGATIVE"⟩
    ⟨.ok ⟨[]⟩, .ok none⟩ (by decide)).1

/-! ### Claim C7: reputation degradation and atomic render -/

/-- C7: one detail-view render always produces exactly one summary
`renderContent` call (after the loader), carrying the merged
translation-plus-reputation result — there is no intermediate render with
only one of the two; and when the reputation fetch fails (no pmid derivable
from the link, transport error, or non-success status) the result degrades
to `none`, the summary is still rendered, and its metrics section is
absent. -/
theorem renderSummaryView_atomic_and_degrades (art : Article) (lang : String)
    (env : FetchEnv)
    (hfail : getPmidFromUrl art.link = none ∨
      (∃ m, env.reputationOutcome = .transportError m) ∨
      (∃ m, env.reputationOutcome = .httpError m)) :
    (renderSummaryView ⟨some art, lang⟩ env).2.2 =
      [.loader, .summary (createSummaryHTML (displayedArticle art lang env)
        (fetchReputation (getPmidFromUrl art.link) env.reputationOutcome).2)] ∧
    (fetchReputation (getPmidFromUrl art.link) env.reputationOutcome).2 = none ∧
    (createSummaryHTML (displayedArticle art lang env)
      (fetchReputation (getPmidFromUrl art.link) env.reputationOutcome).2).metricsShown
      = false := by
  have hnone : (fetchReputation (getPmidFromUrl art.link)
      env.reputationOutcome).2 = none := by
    cases hp : getPmidFromUrl art.link with
    | none => simp [fetchReputation, hp]
    | some p =>
      rcases hfail with h | ⟨m, h⟩ | ⟨m, h⟩
      · simp [h] at hp
      · simp [fetchReputation, hp, h]
      · simp [fetchReputation, hp, h]
  refine ⟨?_, hnone, by simp [createSummaryHTML, hnone]⟩
  simp only [renderSummaryView]

/-- Witness for C7: a link with no PubMed id still renders the summary,
without the metrics section. -/
theorem renderSummaryView_atomic_and_degrades_witness :
    (renderSummaryView ⟨some ⟨"https://example.org/a", "T", "A", "S", "NEGATIVE"⟩, "en"⟩
        ⟨.ok ⟨[("Recency", 50)]⟩, .ok none⟩).2.2 =
      [.loader, .summary ⟨"T", "S", "A", "NEGATIVE", false⟩] :=
  ((renderSummaryView_atomic_and_degrades
      ⟨"https://example.org/a", "T", "A", "S", "NEGATIVE"⟩ "en"
      ⟨.ok ⟨[("Recency", 50)]⟩, .ok none⟩ (Or.inl (by decide))).1).trans
    (by decide)

/-! ### Claim C10: positional translation overlay -/

/-- C10 counterexample: an article whose only empty field is the abstract
refutes the blanket claim that any empty field puts translations on the
wrong fields: the filtered request is [title, summary], each translation
lands on its own field — the title slot gets the title's translation and
the summary slot the summary's — and the abstract merely falls back to the
untranslated original. -/
theorem translation_overlay_counterexample :
    textsToTranslate ⟨"u", "T", "", "S", "POSITIVE"⟩ = ["T", "S"] ∧
    displayedArticle ⟨"u", "T", "", "S", "POSITIVE"⟩ "zh"
        ⟨.ok ⟨[]⟩, .ok (some ["T-zh", "S-zh"])⟩ =
      ⟨"u", "T-zh", "", "S-zh", "POSITIVE"⟩ := by
  decide

/-- C10 amended: the translation overlay is positional over a pre-filtered
list.  With all three fields non-empty the batched request is exactly
[title, summary, abstract] and the three translations display in their
respective slots.  An empty summary or an empty title shortens the request
and shifts the positions, so translations land on the wrong fields (with the
skipped later slots falling back to the originals).  An empty abstract
alone, however, leaves the mapping correct: both translations land on their
own fields and the abstract falls back untranslated. -/
theorem translation_overlay_positional (art : Article) (lang : String)
    (f : String → String) (rep : FetchOutcome Reputation)
    (hlang : lang ≠ "en") (hf : ∀ s, f s ≠ "") :
    (art.title ≠ "" → art.summary ≠ "" → art.abstract ≠ "" →
      textsToTranslate art = [art.title, art.summary, art.abstract] ∧
      ApiCall.translate [art.title, art.summary, art.abstract] lang ∈
        (renderSummaryView ⟨some art, lang⟩
          ⟨rep, .ok (some ((textsToTranslate art).map f))⟩).2.1 ∧
      displayedArticle art lang ⟨rep, .ok (some ((textsToTranslate art).map f))⟩ =
        { art with title := f art.title, summary := f art.summary,
                   abstract := f art.abstract }) ∧
    (art.title ≠ "" → art.summary = "" → art.abstract ≠ "" →
      textsToTranslate art = [art.title, art.abstract] ∧
      displayedArticle art lang ⟨rep, .ok (some ((textsToTranslate art).map f))⟩ =
        { art with title := f art.title, summary := f art.abstract }) ∧
    (art.title = "" → art.summary ≠ "" → art.abstract ≠ "" →
      textsToTranslate art = [art.summary, art.abstract] ∧
      displayedArticle art lang ⟨rep, .ok (some ((textsToTranslate art).map f))⟩ =
        { art with title := f art.summary, summary := f art.abstract }) ∧
    (art.title ≠ "" → art.summary ≠ "" → art.abstract = "" →
      textsToTranslate art = [art.title, art.summary] ∧
      displayedArticle art lang ⟨rep, .ok (some ((textsToTranslate art).map f))⟩ =
        { art with title := f art.title, summary := f art.summary }) := by
  refine ⟨?_, ?_, ?_, ?_⟩
  · intro ht hs ha
    have htex : textsToTranslate art = [art.title, art.summary, art.abstract] := by
      simp [textsToTranslate, ht, hs, ha]
    have htrans : translateTexts (textsToTranslate art) lang
        (.ok (some ((textsToTranslate art).map f))) =
        [f art.title, f art.summary, f art.abstract] := by
      rw [translateTexts, if_neg (by simp [htex, hlang])]
      simp [htex]
    refine ⟨htex, ?_, ?_⟩
    · simp only [renderSummaryView, translateTextsCalls]
      rw [if_neg hlang, if_neg (by simp [htex, hlang])]
      simp [htex]
    · simp [displayedArticle, hlang, htrans, mergeTranslation, jsIndexOr,
        hf art.title, hf art.summary, hf art.abstract]
  · intro ht hs ha
    have htex : textsToTranslate art = [art.title, art.abstract] := by
      simp [textsToTranslate, ht, hs, ha]
    have htrans : translateTexts (textsToTranslate art) lang
        (.ok (some ((textsToTranslate art).map f))) =
        [f art.title, f art.abstract] := by
      rw [translateTexts, if_neg (by simp [htex, hlang])]
      simp [htex]
    refine ⟨htex, ?_⟩
    simp [displayedArticle, hlang, htrans, mergeTranslation, jsIndexOr,
      hf art.title, hf art.abstract, hs]
  · intro ht hs ha
    have htex : textsToTranslate art = [art.summary, art.abstract] := by
      simp [textsToTranslate, ht, hs, ha]
    have htrans : translateTexts (textsToTranslate art) lang
        (.ok (some ((textsToTranslate art).map f))) =
        [f art.summary, f art.abstract] := by
      rw [translateTexts, if_neg (by simp [htex, hlang])]
      simp [htex]
    refine ⟨htex, ?_⟩
    simp [displayedArticle, hlang, htrans, mergeTranslation, jsIndexOr,
      hf art.summary, hf art.abstract, ht]
  · intro ht hs ha
    have htex : textsToTranslate art = [art.title, art.summary] := by
      simp [textsToTranslate, ht, hs, ha]
    have htrans : translateTexts (textsToTranslate art) lang
        (.ok (some ((textsToTranslate art).map f))) =
        [f art.title, f art.summary] := by
      rw [translateTexts, if_neg (by simp [htex, hlang])]
      simp [htex]
    refine ⟨htex, ?_⟩
    simp [displayedArticle, hlang, htrans, mergeTranslation, jsIndexOr,
      hf art.title, hf art.summary, ha]

/-- Witness for C10's amended statement: a constant translation server
makes the empty-summary misassignment visible (the translated abstract
lands in the summary slot), and an empty title shifts both translations. -/
theorem translation_overlay_positional_witness :
    (textsToTranslate ⟨"u", "T", "A", "", "POSITIVE"⟩ = ["T", "A"] ∧
      displayedArticle ⟨"u", "T", "A", "", "POSITIVE"⟩ "zh"
          ⟨.ok ⟨[]⟩, .ok (some ((textsToTranslate ⟨"u", "T", "A", "", "POSITIVE"⟩).map
            (fun _ => "X")))⟩ =
        ⟨"u", "X", "A", "X", "POSITIVE"⟩) ∧
    (textsToTranslate ⟨"u", "", "A", "S", "POSITIVE"⟩ = ["S", "A"] ∧
      displayedArticle ⟨"u", "", "A", "S", "POSITIVE"⟩ "zh"
          ⟨.ok ⟨[]⟩, .ok (some ((textsToTranslate ⟨"u", "", "A", "S", "POSITIVE"⟩).map
            (fun _ => "X")))⟩ =
        ⟨"u", "X", "A", "X", "POSITIVE"⟩) :=
  ⟨(translation_overlay_positional ⟨"u", "T", "A", "", "POSITIVE"⟩ "zh"
      (fun _ => "X") (.ok ⟨[]⟩) (by decide) (by intro s; simp)).2.1
      (by decide) (by decide) (by decide),
   (translation_overlay_positional ⟨"u", "", "A", "S", "POSITIVE"⟩ "zh"
      (fun _ => "X") (.ok ⟨[]⟩) (by decide) (by intro s; simp)).2.2.1
      (by decide) (by decide) (by decide)⟩

end Aionex
